import Mathlib

/-!
Verification development for the `webcam` Go library.

The library consists of three files:
* `formats.go` — FourCC pixel-format codes (`EncodeFormat`/`DecodeFormat`) and
  frame-size descriptions;
* `image.go` — the pixel pipeline: a dispatch table from 4CC tags to decoders,
  the decoders for packed YUV 4:2:2, planar YUV 4:2:0, RGB24 and RGBA32 byte
  layouts, and the `Compress` entry point (the repository carries two revisions
  of this file; the later revision is embedded at the top level, and the one
  function whose behaviour changed between revisions, `decodeRGBA`, is also
  embedded from the earlier revision under the namespace `Rev1`);
* `webcam.go` — the capture engine: the `Camera` object with its buffer pool
  and streaming flag, on top of low-level V4L2 transport calls.

Byte strings are modelled as `List Nat` (each element a byte value), Go's
`uint32` values as `Nat` (the quantities involved never reach `2^32` on the
inputs considered, and where packing matters the 8-bit lanes are explicit).
Out-of-range reads in the Go code would panic; the embedding uses `List.getD`
with default `0`, and theorems that depend on in-bounds access carry explicit
length hypotheses.  The low-level transport (ioctl wrappers, `mmap`) is not
part of the repository; it is modelled as a record of oracle functions.
-/

namespace Webcam

/-! ### formats.go -/

/-- Embeds `EncodeFormat` (formats.go): converts a 4CC string to a packed
little-endian 32-bit code.  Each of the four byte slots defaults to the
space character (32) and is overwritten when the string is long enough,
then the bytes are packed as `byte0 | byte1<<8 | byte2<<16 | byte3<<24`. -/
def EncodeFormat (value : List Nat) : Nat :=
  let length := value.length
  let a : Nat := if 1 ≤ length then value.getD 0 32 else 32
  let b : Nat := if 2 ≤ length then value.getD 1 32 else 32
  let c : Nat := if 3 ≤ length then value.getD 2 32 else 32
  let d : Nat := if 4 ≤ length then value.getD 3 32 else 32
  a ||| (b <<< 8) ||| (c <<< 16) ||| (d <<< 24)

/-- Embeds `DecodeFormat` (formats.go): unpacks a 32-bit code into its four
bytes, least significant first. -/
def DecodeFormat (format : Nat) : List Nat :=
  [format &&& 0xff,
   (format >>> 8) &&& 0xff,
   (format >>> 16) &&& 0xff,
   (format >>> 24) &&& 0xff]

/-- Disjoint-lane bitwise or is addition: when `x` fits below bit `k`,
or-ing in `y <<< k` is the same as adding `y * 2 ^ k`. -/
lemma lor_shiftLeft_eq_add {x : Nat} (y k : Nat) (hx : x < 2 ^ k) :
    x ||| (y <<< k) = x + y * 2 ^ k := by
  rw [Nat.shiftLeft_eq, Nat.lor_comm, Nat.mul_comm]
  rw [← Nat.mul_add_lt_is_or hx y]
  omega

/-- Unpacking four explicitly packed bytes recovers them. -/
lemma DecodeFormat_pack (a b c d : Nat) (ha : a < 256) (hb : b < 256)
    (hc : c < 256) (hd : d < 256) :
    DecodeFormat (a ||| (b <<< 8) ||| (c <<< 16) ||| (d <<< 24)) = [a, b, c, d] := by
  have h1 : a ||| (b <<< 8) = a + b * 2 ^ 8 :=
    lor_shiftLeft_eq_add b 8 (by omega)
  have h2 : a + b * 2 ^ 8 ||| (c <<< 16) = a + b * 2 ^ 8 + c * 2 ^ 16 :=
    lor_shiftLeft_eq_add c 16 (by norm_num; omega)
  have h3 : a + b * 2 ^ 8 + c * 2 ^ 16 ||| (d <<< 24) =
      a + b * 2 ^ 8 + c * 2 ^ 16 + d * 2 ^ 24 :=
    lor_shiftLeft_eq_add d 24 (by norm_num; omega)
  have hmask : ∀ n : Nat, n &&& 0xff = n % 2 ^ 8 := fun n => by
    have := Nat.and_pow_two_sub_one_eq_mod n 8
    norm_num at this ⊢
    exact this
  simp only [DecodeFormat, h1, h2, h3, hmask, Nat.shiftRight_eq_div_pow]
  norm_num
  omega

/-- C4. FourCC round trip: for every string of 1 to 4 printable ASCII bytes,
decoding the encoded tag yields the string right-padded with spaces (byte 32)
to length 4, the encoding being the little-endian packing
`byte0 | byte1<<8 | byte2<<16 | byte3<<24` of the (padded) bytes. -/
theorem decode_encode_roundtrip (s : List Nat) (hlen1 : 1 ≤ s.length)
    (hlen4 : s.length ≤ 4) (hprint : ∀ x ∈ s, 32 ≤ x ∧ x ≤ 126) :
    DecodeFormat (EncodeFormat s) = s ++ List.replicate (4 - s.length) 32 := by
  match s, hlen1, hlen4 with
  | [a], _, _ =>
    have ha := hprint a (by simp)
    rw [show EncodeFormat [a] = a ||| (32 <<< 8) ||| (32 <<< 16) ||| (32 <<< 24) from rfl,
        DecodeFormat_pack a 32 32 32 (by omega) (by omega) (by omega) (by omega)]
    rfl
  | [a, b], _, _ =>
    have ha := hprint a (by simp)
    have hb := hprint b (by simp)
    rw [show EncodeFormat [a, b] = a ||| (b <<< 8) ||| (32 <<< 16) ||| (32 <<< 24) from rfl,
        DecodeFormat_pack a b 32 32 (by omega) (by omega) (by omega) (by omega)]
    rfl
  | [a, b, c], _, _ =>
    have ha := hprint a (by simp)
    have hb := hprint b (by simp)
    have hc := hprint c (by simp)
    rw [show EncodeFormat [a, b, c] = a ||| (b <<< 8) ||| (c <<< 16) ||| (32 <<< 24) from rfl,
        DecodeFormat_pack a b c 32 (by omega) (by omega) (by omega) (by omega)]
    rfl
  | [a, b, c, d], _, _ =>
    have ha := hprint a (by simp)
    have hb := hprint b (by simp)
    have hc := hprint c (by simp)
    have hd := hprint d (by simp)
    rw [show EncodeFormat [a, b, c, d] = a ||| (b <<< 8) ||| (c <<< 16) ||| (d <<< 24) from rfl,
        DecodeFormat_pack a b c d (by omega) (by omega) (by omega) (by omega)]
    rfl

/-- C4 witness: the tag YUYV (bytes 89, 85, 89, 86) round-trips. -/
theorem decode_encode_roundtrip_witness :
    DecodeFormat (EncodeFormat [89, 85, 89, 86]) =
      [89, 85, 89, 86] ++ List.replicate (4 - [89, 85, 89, 86].length) 32 :=
  decode_encode_roundtrip [89, 85, 89, 86] (by decide) (by decide)
    (by intro x hx; fin_cases hx <;> omega)

/-! ### image.go — pixel pipeline (later revision)

The decoders build Go `image` values by writing into zero-initialised planes;
the embedding mirrors each loop iteration with `List.set` writes (a no-op out
of range, where Go would panic) and reads frame bytes with `List.getD` with
default `0` (Go would panic out of range).  Plane lengths follow Go's
`image.NewYCbCr`: for subsample ratio 4:2:2 the chroma planes hold
`((w+1)/2) * h` samples, for 4:2:0 `((w+1)/2) * ((h+1)/2)` samples, and the
luma plane holds `w * h`. -/

/-- Chroma plane length allocated by `image.NewYCbCr` at ratio 4:2:2. -/
def chroma422Len (width height : Nat) : Nat := ((width + 1) / 2) * height

/-- Chroma plane length allocated by `image.NewYCbCr` at ratio 4:2:0. -/
def chroma420Len (width height : Nat) : Nat := ((width + 1) / 2) * ((height + 1) / 2)

/-- Canonical YCbCr image: the three planes of a Go `image.YCbCr` value. -/
structure YCbCrImage where
  y : List Nat
  cb : List Nat
  cr : List Nat
deriving DecidableEq

/-- Embeds `decodePackedYUV` (image.go, later revision).  The Go loop ranges
over the Cb plane; iteration `i` reads the 4-byte group at offset `i*4` and
writes two luma samples and one chroma pair at format-specific byte
positions.  An unrecognised tag leaves the zero-initialised planes untouched,
as the Go switch does. -/
def decodePackedYUV (frame : List Nat) (f : String) (width height : Nat) : YCbCrImage :=
  let init : YCbCrImage :=
    { y := List.replicate (width * height) 0
      cb := List.replicate (chroma422Len width height) 0
      cr := List.replicate (chroma422Len width height) 0 }
  (List.range (chroma422Len width height)).foldl (fun img i =>
    let ii := i * 4
    match f with
    | "YUYV" =>
      { y := (img.y.set (i*2) (frame.getD ii 0)).set (i*2+1) (frame.getD (ii+2) 0)
        cb := img.cb.set i (frame.getD (ii+1) 0)
        cr := img.cr.set i (frame.getD (ii+3) 0) }
    | "YVYU" =>
      { y := (img.y.set (i*2) (frame.getD ii 0)).set (i*2+1) (frame.getD (ii+2) 0)
        cb := img.cb.set i (frame.getD (ii+3) 0)
        cr := img.cr.set i (frame.getD (ii+1) 0) }
    | "YUNV" =>
      { y := (img.y.set (i*2) (frame.getD ii 0)).set (i*2+1) (frame.getD (ii+2) 0)
        cb := img.cb.set i (frame.getD (ii+1) 0)
        cr := img.cr.set i (frame.getD (ii+3) 0) }
    | "VYUY" =>
      { y := (img.y.set (i*2) (frame.getD (ii+1) 0)).set (i*2+1) (frame.getD (ii+3) 0)
        cb := img.cb.set i (frame.getD (ii+2) 0)
        cr := img.cr.set i (frame.getD ii 0) }
    | "UYVY" =>
      { y := (img.y.set (i*2) (frame.getD (ii+1) 0)).set (i*2+1) (frame.getD (ii+3) 0)
        cb := img.cb.set i (frame.getD ii 0)
        cr := img.cr.set i (frame.getD (ii+2) 0) }
    | _ => img) init

/-- Embeds `decodePlanarYUV` (image.go, later revision).  The luma plane is a
direct copy of the first `w*h` bytes.  The chroma loops read, per format,
either two consecutive contiguous planes after the luma bytes (YU12, YV12,
I420, with the Cb/Cr order per format) or one interleaved half-size plane
(NV12, NV21).  An unrecognised tag leaves the chroma planes zero, as the Go
switch does. -/
def decodePlanarYUV (frame : List Nat) (f : String) (width height : Nat) : YCbCrImage :=
  let yLen := width * height
  let cLen := chroma420Len width height
  let y := (List.range yLen).map (fun i => frame.getD i 0)
  match f with
  | "YU12" =>
    { y := y
      cb := (List.range cLen).map (fun i => frame.getD (i + yLen) 0)
      cr := (List.range cLen).map (fun i => frame.getD (i + yLen + cLen) 0) }
  | "YV12" =>
    { y := y
      cb := (List.range cLen).map (fun i => frame.getD (i + yLen + cLen) 0)
      cr := (List.range cLen).map (fun i => frame.getD (i + yLen) 0) }
  | "I420" =>
    { y := y
      cb := (List.range cLen).map (fun i => frame.getD (i + yLen) 0)
      cr := (List.range cLen).map (fun i => frame.getD (i + yLen + cLen) 0) }
  | "NV12" =>
    { y := y
      cb := (List.range cLen).map (fun i => frame.getD (yLen + 2*i) 0)
      cr := (List.range cLen).map (fun i => frame.getD (yLen + 2*i + 1) 0) }
  | "NV21" =>
    { y := y
      cb := (List.range cLen).map (fun i => frame.getD (yLen + 2*i + 1) 0)
      cr := (List.range cLen).map (fun i => frame.getD (yLen + 2*i) 0) }
  | _ => { y := y, cb := List.replicate cLen 0, cr := List.replicate cLen 0 }

/-- Embeds the pixel-buffer construction of `decodeRGB` (image.go, later
revision): every third index starts a 3-byte group copied in tag-specific
channel order into the image's `Pix` buffer. -/
def decodeRGB (frame : List Nat) (f : String) (width height : Nat) : List Nat :=
  (List.range frame.length).foldl (fun pix i =>
    if i % 3 == 0 then
      match f with
      | "RGB3" =>
        ((pix.set i (frame.getD i 0)).set (i+1)
          (frame.getD (i+1) 0)).set (i+2) (frame.getD (i+2) 0)
      | "BGR3" =>
        ((pix.set i (frame.getD (i+2) 0)).set (i+1)
          (frame.getD (i+1) 0)).set (i+2) (frame.getD i 0)
      | _ => pix
    else pix) (List.replicate (3 * width * height) 0)

/-- Embeds the pixel-buffer construction of `decodeRGBA` (image.go, later
revision, the one registered in the dispatch table): every fourth index
starts a 4-byte group; under this revision the RGB4 tag swaps the first and
third channel and BGR4 copies all four channels unchanged. -/
def decodeRGBA (frame : List Nat) (f : String) (width height : Nat) : List Nat :=
  (List.range frame.length).foldl (fun buf i =>
    if i % 4 == 0 then
      match f with
      | "RGB4" =>
        (((buf.set i (frame.getD (i+2) 0)).set (i+1) (frame.getD (i+1) 0)).set
          (i+2) (frame.getD i 0)).set (i+3) (frame.getD (i+3) 0)
      | "BGR4" =>
        (((buf.set i (frame.getD i 0)).set (i+1) (frame.getD (i+1) 0)).set
          (i+2) (frame.getD (i+2) 0)).set (i+3) (frame.getD (i+3) 0)
      | _ => buf
    else buf) (List.replicate (4 * width * height) 0)

namespace Rev1

/-- Embeds the pixel-buffer construction of `decodeRGBA` from the earlier
revision of image.go: same loop, but RGB4 copies all four channels unchanged
and BGR4 swaps the first and third channel — the opposite assignment of the
two tags compared with the later revision. -/
def decodeRGBA (frame : List Nat) (f : String) (width height : Nat) : List Nat :=
  (List.range frame.length).foldl (fun buf i =>
    if i % 4 == 0 then
      match f with
      | "RGB4" =>
        (((buf.set i (frame.getD i 0)).set (i+1) (frame.getD (i+1) 0)).set
          (i+2) (frame.getD (i+2) 0)).set (i+3) (frame.getD (i+3) 0)
      | "BGR4" =>
        (((buf.set i (frame.getD (i+2) 0)).set (i+1) (frame.getD (i+1) 0)).set
          (i+2) (frame.getD i 0)).set (i+3) (frame.getD (i+3) 0)
      | _ => buf
    else buf) (List.replicate (4 * width * height) 0)

end Rev1

/-- Decoded image value: which Go image type a decoder produced, with its
pixel data.  The rotation, resize and JPEG-encoding stages that follow decode
in `Compress` call external libraries (`imaging`, `image/jpeg`) outside this
repository and are not modelled; reaching them is marked by
`CompressResult.encoded` carrying the decoded image. -/
inductive DecodedImage where
  | ycbcr422 (img : YCbCrImage)
  | ycbcr420 (img : YCbCrImage)
  | rgbImg (pix : List Nat)
  | rgbaImg (pix : List Nat)
deriving DecidableEq

/-- Type of the entries of the `formats` dispatch table: a decoder takes the
frame bytes, the tag, width and height and returns a decoded image or an
error (in the source every decoder in fact always returns a nil error). -/
def Decoder : Type := List Nat → String → Nat → Nat → Except Nat DecodedImage

/-- Format list `packedYUV` from image.go (later revision).  Note YUNV is not
in this list even though `decodePackedYUV` has a case for it. -/
def packedYUV : List String := ["YUYV", "YVYU", "UYVY", "VYUY"]

/-- Format list `planarYUV` from image.go (later revision).  Note I420 is not
in this list even though `decodePlanarYUV` has a case for it. -/
def planarYUV : List String := ["YU12", "YV12", "NV12", "NV21"]

/-- Format list `rgb` from image.go. -/
def rgb : List String := ["RGB3", "BGR3"]

/-- Format list `rgba` from image.go. -/
def rgba : List String := ["RGB4", "BGR4"]

/-- Embeds the `formats` dispatch table built by `init` in image.go (later
revision): each tag of the four format lists maps to its family's decoder,
every other tag is absent. -/
def formats (format : String) : Option Decoder :=
  if packedYUV.contains format then
    some (fun frame f w h => .ok (.ycbcr422 (decodePackedYUV frame f w h)))
  else if planarYUV.contains format then
    some (fun frame f w h => .ok (.ycbcr420 (decodePlanarYUV frame f w h)))
  else if rgb.contains format then
    some (fun frame f w h => .ok (.rgbImg (decodeRGB frame f w h)))
  else if rgba.contains format then
    some (fun frame f w h => .ok (.rgbaImg (decodeRGBA frame f w h)))
  else none

/-- Outcome of `Compress`: already-compressed passthrough (with the returned
bytes), unsupported-format error, degenerate-input error, a decoder error, or
arrival at the post-decode stages with the decoded image.  The advisory
diagnostic strings that accompany each Go return are never parsed by callers
and are omitted. -/
inductive CompressResult where
  | passthrough (bytes : List Nat)
  | unsupported (format : String)
  | inputError
  | decodeError (e : Nat)
  | encoded (img : DecodedImage)
deriving DecidableEq

/-- Embeds `Compress` (image.go, later revision), generalised over the
dispatch table so that independence from the decoders' behaviour is
expressible.  The steps mirror the source order: table lookup first (a miss
is a passthrough for the two hardware-JPEG tags and an unsupported-format
error otherwise), then rejection of degenerate width, height or frame
length, then the table's decoder. -/
def CompressWith (tbl : String → Option Decoder) (frame : List Nat)
    (format : String) (width height : Nat) : CompressResult :=
  match tbl format with
  | none =>
    if format = "JPEG" ∨ format = "MJPG" then .passthrough frame
    else .unsupported format
  | some encoder =>
    if width ≤ 10 ∨ height ≤ 10 ∨ frame.length ≤ 10 then .inputError
    else
      match encoder frame format width height with
      | .error e => .decodeError e
      | .ok decodedImage => .encoded decodedImage

/-- The `Compress` of the source: `CompressWith` at the real dispatch table. -/
def Compress (frame : List Nat) (format : String) (width height : Nat) :
    CompressResult :=
  CompressWith formats frame format width height

/-! ### Pixel-pipeline theorems -/

/-- C5. Packed YUV decode exactness on a 2x1 frame `[Y0, U, Y1, V]`: under
YUYV the luma plane is `[Y0, Y1]` with `Cb[0] = U` and `Cr[0] = V`; under
YVYU the same bytes give the same luma plane with the U and V positions
swapped, `Cb[0] = V` and `Cr[0] = U`. -/
theorem decodePackedYUV_two_pixel (y0 u y1 v : Nat) :
    decodePackedYUV [y0, u, y1, v] "YUYV" 2 1 = ⟨[y0, y1], [u], [v]⟩ ∧
    decodePackedYUV [y0, u, y1, v] "YVYU" 2 1 = ⟨[y0, y1], [v], [u]⟩ := by
  constructor <;> rfl

/-- Chroma plane number `k` (0 = first, 1 = second) of the contiguous planar
4:2:0 layout: the plane of `chroma420Len` bytes starting `k` planes after
the `w*h` luma bytes.  Stated from the spec's layout description, for
comparison with the decoder. -/
def planarChromaPlane (frame : List Nat) (width height k : Nat) : List Nat :=
  (List.range (chroma420Len width height)).map
    (fun i => frame.getD (i + width * height + k * chroma420Len width height) 0)

/-- C6. Planar chroma plane order: for every frame (long enough for the Go
code not to index out of range) YU12 reads Cb from the first contiguous
chroma plane after the `w*h` luma bytes and Cr from the second, YV12 reads
them in the opposite order, and consequently the Cb plane under YU12 equals
the Cr plane under YV12 and vice versa. -/
theorem decodePlanarYUV_plane_order (frame : List Nat) (width height : Nat)
    (_hlen : width * height + 2 * chroma420Len width height ≤ frame.length) :
    (decodePlanarYUV frame "YU12" width height).cb =
      planarChromaPlane frame width height 0 ∧
    (decodePlanarYUV frame "YU12" width height).cr =
      planarChromaPlane frame width height 1 ∧
    (decodePlanarYUV frame "YV12" width height).cr =
      planarChromaPlane frame width height 0 ∧
    (decodePlanarYUV frame "YV12" width height).cb =
      planarChromaPlane frame width height 1 ∧
    (decodePlanarYUV frame "YU12" width height).cb =
      (decodePlanarYUV frame "YV12" width height).cr ∧
    (decodePlanarYUV frame "YU12" width height).cr =
      (decodePlanarYUV frame "YV12" width height).cb := by
  refine ⟨?_, ?_, ?_, ?_, rfl, rfl⟩ <;>
    simp [decodePlanarYUV, planarChromaPlane, Nat.add_comm, Nat.add_assoc]

/-- C6 witness: a 2x2 frame of six bytes satisfies the length bound and the
plane-order conjunction holds there. -/
theorem decodePlanarYUV_plane_order_witness :
    (decodePlanarYUV [10, 11, 12, 13, 14, 15] "YU12" 2 2).cb =
      planarChromaPlane [10, 11, 12, 13, 14, 15] 2 2 0 ∧
    (decodePlanarYUV [10, 11, 12, 13, 14, 15] "YU12" 2 2).cr =
      planarChromaPlane [10, 11, 12, 13, 14, 15] 2 2 1 ∧
    (decodePlanarYUV [10, 11, 12, 13, 14, 15] "YV12" 2 2).cr =
      planarChromaPlane [10, 11, 12, 13, 14, 15] 2 2 0 ∧
    (decodePlanarYUV [10, 11, 12, 13, 14, 15] "YV12" 2 2).cb =
      planarChromaPlane [10, 11, 12, 13, 14, 15] 2 2 1 ∧
    (decodePlanarYUV [10, 11, 12, 13, 14, 15] "YU12" 2 2).cb =
      (decodePlanarYUV [10, 11, 12, 13, 14, 15] "YV12" 2 2).cr ∧
    (decodePlanarYUV [10, 11, 12, 13, 14, 15] "YU12" 2 2).cr =
      (decodePlanarYUV [10, 11, 12, 13, 14, 15] "YV12" 2 2).cb :=
  decodePlanarYUV_plane_order [10, 11, 12, 13, 14, 15] 2 2 (by decide)

/-- C3. The YUNV tag: `decodePackedYUV` itself treats YUNV exactly as YUYV
(supporting its documentation comment), but the dispatch table never
registers YUNV, so `Compress` rejects it with the unsupported-format error
instead of decoding it. -/
theorem compress_rejects_yunv (frame : List Nat) (width height : Nat) :
    Compress frame "YUNV" width height = .unsupported "YUNV" ∧
    decodePackedYUV frame "YUNV" width height =
      decodePackedYUV frame "YUYV" width height := by
  exact ⟨rfl, rfl⟩

/-- C8. Degenerate-input rejection: when the format has a table entry and the
width, height or frame length is at most 10, `Compress` returns the input
error; moreover the result is the input error for an arbitrary table entry,
so no decoder's behaviour can influence it (no decoder runs). -/
theorem compress_rejects_degenerate (frame : List Nat) (format : String)
    (width height : Nat) (hsupp : (formats format).isSome = true)
    (hdeg : width ≤ 10 ∨ height ≤ 10 ∨ frame.length ≤ 10) :
    Compress frame format width height = .inputError ∧
    ∀ (tbl : String → Option Decoder) (d : Decoder), tbl format = some d →
      CompressWith tbl frame format width height = .inputError := by
  have gen : ∀ (tbl : String → Option Decoder) (d : Decoder), tbl format = some d →
      CompressWith tbl frame format width height = .inputError := by
    intro tbl d h
    simp only [CompressWith, h]
    rw [if_pos hdeg]
  obtain ⟨d, hd⟩ := Option.isSome_iff_exists.mp hsupp
  exact ⟨gen formats d hd, gen⟩

/-- C8 witness: a supported format (YUYV) with width 5 is rejected with the
input error. -/
theorem compress_rejects_degenerate_witness :
    Compress (List.replicate 20 0) "YUYV" 5 480 = .inputError :=
  (compress_rejects_degenerate (List.replicate 20 0) "YUYV" 5 480
    (by rfl) (by simp)).1

/-- C9. Hardware-JPEG passthrough: a frame tagged JPEG or MJPG is returned
unchanged with no error, bypassing decode, rotation, resize and encode. -/
theorem compress_passthrough (frame : List Nat) (width height : Nat) :
    Compress frame "JPEG" width height = .passthrough frame ∧
    Compress frame "MJPG" width height = .passthrough frame := by
  exact ⟨rfl, rfl⟩

/-- C10 counterexample: on the one-pixel RGBA frame `[1, 2, 3, 4]` under the
RGB4 tag the earlier revision of `decodeRGBA` yields `[1, 2, 3, 4]` while
the later revision yields `[3, 2, 1, 4]`, so the two revisions do not
produce the same pixel buffer. -/
theorem decodeRGBA_revisions_differ :
    Rev1.decodeRGBA [1, 2, 3, 4] "RGB4" 1 1 ≠ decodeRGBA [1, 2, 3, 4] "RGB4" 1 1 := by
  decide

/-- C10 amended: the two revisions of `decodeRGBA` swap the channel rules of
the two tags — for every frame, width and height the earlier revision on
RGB4 equals the later revision on BGR4 and the earlier revision on BGR4
equals the later revision on RGB4. -/
theorem decodeRGBA_revisions_swap (frame : List Nat) (width height : Nat) :
    Rev1.decodeRGBA frame "RGB4" width height = decodeRGBA frame "BGR4" width height ∧
    Rev1.decodeRGBA frame "BGR4" width height = decodeRGBA frame "RGB4" width height := by
  exact ⟨rfl, rfl⟩

/-! ### webcam.go — capture engine

The ioctl/mmap wrappers that webcam.go calls (`setImageFormat`,
`mmapRequestBuffers`, `mmapQueryBuffer`, `mmapEnqueueBuffer`,
`mmapDequeueBuffer`, `mmapReleaseBuffer`, `startStreaming`, `stopStreaming`
at the transport level) are not part of the repository; they are modelled as
a record of oracle functions with abstract numeric error codes.  Go methods
mutate the receiver and return an error; the embedding returns the camera
state after the call paired with an optional error. -/

/-- Transport oracle: the low-level V4L2 operations webcam.go calls.  Errors
are abstract codes.  The query operation's length out-parameter is unused by
the caller and omitted. -/
structure Transport where
  requestBuffers : Nat → Except Nat Nat
  queryBuffer : Nat → Except Nat (List Nat)
  enqueueBuffer : Nat → Except Nat Unit
  startStream : Except Nat Unit
  stopStream : Except Nat Unit
  releaseBuffer : List Nat → Except Nat Unit
  negotiate : Nat → Nat → Nat → Except Nat (Nat × Nat × Nat)

/-- Camera object of webcam.go: desired/granted buffer count, the mapped
buffer pool, and the streaming flag.  The file-descriptor field is folded
into the transport oracle. -/
structure Camera where
  bufcount : Nat
  buffers : List (List Nat)
  streaming : Bool
deriving DecidableEq

/-- Errors surfaced by the camera methods.  The `transport` constructor marks
a transport error returned unwrapped (as `StopStreaming` does); the others
mirror the wrapped or freshly created error strings of webcam.go. -/
inductive CamErr where
  | alreadyStreaming
  | notStreaming
  | setBufferWhileStreaming
  | requestBuffersFailed (e : Nat)
  | mapFailed (e : Nat)
  | enqueueFailed (e : Nat)
  | startFailed (e : Nat)
  | transport (e : Nat)
deriving DecidableEq

/-- Embeds `SetImageFormat` (webcam.go): the requested width and height are
saved in `cw`/`ch` before the transport call; the transport rewrites the
format code and dimensions through pointers, and on success the method
returns the rewritten code together with the saved `cw` and `ch`. -/
def setImageFormat (t : Transport) (f width height : Nat) :
    Except Nat (Nat × Nat × Nat) :=
  let code := f
  let cw := width
  let ch := height
  match t.negotiate code width height with
  | .error e => .error e
  | .ok (negotiatedCode, _negotiatedWidth, _negotiatedHeight) =>
    .ok (negotiatedCode, cw, ch)

/-- Embeds `SetBufferCount` (webcam.go): rejected while streaming, otherwise
stores the count. -/
def SetBufferCount (c : Camera) (count : Nat) : Camera × Option CamErr :=
  if c.streaming then (c, some .setBufferWhileStreaming)
  else ({ c with bufcount := count }, none)

/-- Mapping loop of `StartStreaming`: queries each buffer index in order into
the freshly allocated pool; on the first failure the remaining slots keep
their zero value (`make`'s nil slices, modelled as `[]`) and the error is
reported. -/
def mapBuffers (t : Transport) : List Nat → List (List Nat) × Option Nat
  | [] => ([], none)
  | i :: rest =>
    match t.queryBuffer i with
    | .error e => (List.replicate (rest.length + 1) [], some e)
    | .ok buffer =>
      let (bs, r) := mapBuffers t rest
      (buffer :: bs, r)

/-- Enqueue loop of `StartStreaming`: enqueues each index in order, stopping
at the first failure. -/
def enqueueAll (t : Transport) : List Nat → Option Nat
  | [] => none
  | i :: rest =>
    match t.enqueueBuffer i with
    | .error e => some e
    | .ok _ => enqueueAll t rest

/-- Embeds `StartStreaming` (webcam.go): guard on the streaming flag, then
request buffers (the granted count overwrites `bufcount`), allocate and map
the pool, enqueue every buffer, issue stream-start, and only then set the
streaming flag. -/
def StartStreaming (t : Transport) (c : Camera) : Camera × Option CamErr :=
  if c.streaming then (c, some .alreadyStreaming)
  else
    match t.requestBuffers c.bufcount with
    | .error e => (c, some (.requestBuffersFailed e))
    | .ok granted =>
      let c1 := { c with bufcount := granted }
      let (bufs, mapErr) := mapBuffers t (List.range granted)
      let c2 := { c1 with buffers := bufs }
      match mapErr with
      | some e => (c2, some (.mapFailed e))
      | none =>
        match enqueueAll t (List.range granted) with
        | some e => (c2, some (.enqueueFailed e))
        | none =>
          match t.startStream with
          | .error e => (c2, some (.startFailed e))
          | .ok _ => ({ c2 with streaming := true }, none)

/-- Unmap loop of `StopStreaming`: releases the pool buffers in pool order;
the first component records the buffers on which the transport release was
invoked, the second the first error.  On a failure the remaining buffers are
not touched. -/
def releaseAll (t : Transport) : List (List Nat) → List (List Nat) × Option Nat
  | [] => ([], none)
  | b :: rest =>
    match t.releaseBuffer b with
    | .error e => ([b], some e)
    | .ok _ =>
      let (tr, r) := releaseAll t rest
      (b :: tr, r)

/-- Embeds `StopStreaming` (webcam.go): guard on the streaming flag, then the
flag is cleared *before* the unmap loop; an unmap failure is returned
unwrapped and aborts the loop, and otherwise the transport stream-stop
result is returned. -/
def StopStreaming (t : Transport) (c : Camera) : Camera × Option CamErr :=
  if !c.streaming then (c, some .notStreaming)
  else
    let c1 := { c with streaming := false }
    match (releaseAll t c1.buffers).2 with
    | some e => (c1, some (.transport e))
    | none =>
      match t.stopStream with
      | .error e => (c1, some (.transport e))
      | .ok _ => (c1, none)

/-! ### Capture-engine theorems -/

/-- Transport on which every operation succeeds and negotiation echoes the
request. -/
def tOk : Transport :=
  { requestBuffers := fun n => .ok n
    queryBuffer := fun _ => .ok []
    enqueueBuffer := fun _ => .ok ()
    startStream := .ok ()
    stopStream := .ok ()
    releaseBuffer := fun _ => .ok ()
    negotiate := fun code w h => .ok (code, w, h) }

/-- Transport whose format negotiation always reports 640 x 480, whatever
dimensions were requested; every other operation succeeds. -/
def negotiateTo640 : Transport :=
  { tOk with negotiate := fun code _ _ => .ok (code, 640, 480) }

/-- Transport whose buffer unmap always fails with error code 7; every other
operation succeeds. -/
def failingRelease : Transport :=
  { tOk with releaseBuffer := fun _ => .error 7 }

/-- Streaming camera with a two-buffer pool. -/
def streamingCam : Camera := { bufcount := 2, buffers := [[1], [2]], streaming := true }

/-- Idle camera with an empty pool. -/
def idleCam : Camera := { bufcount := 256, buffers := [], streaming := false }

/-- C1. `SetImageFormat` echoes the caller's requested dimensions: on a
transport that negotiates every request down to 640 x 480, requesting
1000 x 1000 still returns width 1000 and height 1000 (with the negotiated
format code), not the 640 x 480 the transport reported — the saved `cw`/`ch`
are returned instead of the post-negotiation values, contradicting the
claim and the method's own comment that the resulting values are returned. -/
theorem setImageFormat_reports_requested :
    setImageFormat negotiateTo640 5 1000 1000 = .ok (5, 1000, 1000) ∧
    negotiateTo640.negotiate 5 1000 1000 = .ok (5, 640, 480) :=
  ⟨rfl, rfl⟩

/-- Unmap loop on an all-successful pool: every buffer is released in order
and no error arises. -/
lemma releaseAll_ok (t : Transport) (bufs : List (List Nat))
    (hok : ∀ b ∈ bufs, t.releaseBuffer b = .ok ()) :
    releaseAll t bufs = (bufs, none) := by
  induction bufs with
  | nil => rfl
  | cons b rest ih =>
    have hb := hok b (by simp)
    simp only [releaseAll, hb]
    rw [ih (fun x hx => hok x (by simp [hx]))]

/-- Unmap loop stopping at the first failure: if the first `k` releases
succeed and release `k` fails with `e`, the loop touches exactly the first
`k + 1` buffers and reports `e`. -/
lemma releaseAll_fail (t : Transport) (bufs : List (List Nat)) (k : Nat) (e : Nat)
    (hk : k < bufs.length)
    (hok : ∀ j, j < k → t.releaseBuffer (bufs.getD j []) = .ok ())
    (hfail : t.releaseBuffer (bufs.getD k []) = .error e) :
    releaseAll t bufs = (bufs.take (k + 1), some e) := by
  induction bufs generalizing k with
  | nil => simp at hk
  | cons b rest ih =>
    cases k with
    | zero =>
      have hb : t.releaseBuffer b = .error e := hfail
      simp only [releaseAll, hb]
      rfl
    | succ k =>
      have hb : t.releaseBuffer b = .ok () := hok 0 (Nat.succ_pos k)
      simp only [releaseAll, hb]
      rw [ih k (by simpa using hk) (fun j hj => hok (j + 1) (by omega)) hfail]
      rfl

/-- C2 counterexample: with a transport whose unmap always fails, stopping a
streaming two-buffer camera returns the unmap error *and* the streaming flag
has already been cleared — the state is flipped to Idle even though the call
failed, contrary to the claim. -/
theorem stopStreaming_flips_state_on_failure :
    (StopStreaming failingRelease streamingCam).2 = some (.transport 7) ∧
    (StopStreaming failingRelease streamingCam).1.streaming = false :=
  ⟨rfl, rfl⟩

/-- C2 amended: for a streaming session, `StopStreaming` clears the streaming
flag unconditionally before unmapping (so the state is Idle even when an
unmap fails); it unmaps the pool buffers in pool order, and if release `k`
fails after `k` successes it touches exactly the first `k + 1` buffers and
returns that error unwrapped; when every release succeeds the whole pool is
unmapped in order and the stream-stop result is returned. -/
theorem stopStreaming_spec (t : Transport) (c : Camera) (h : c.streaming = true) :
    (StopStreaming t c).1 = { c with streaming := false } ∧
    (∀ k e, k < c.buffers.length →
      (∀ j, j < k → t.releaseBuffer (c.buffers.getD j []) = .ok ()) →
      t.releaseBuffer (c.buffers.getD k []) = .error e →
      (StopStreaming t c).2 = some (.transport e) ∧
      (releaseAll t c.buffers).1 = c.buffers.take (k + 1)) ∧
    ((∀ b ∈ c.buffers, t.releaseBuffer b = .ok ()) →
      (releaseAll t c.buffers).1 = c.buffers ∧
      (StopStreaming t c).2 = (match t.stopStream with
        | .error e => some (.transport e)
        | .ok _ => none)) := by
  refine ⟨?_, ?_, ?_⟩
  · simp only [StopStreaming, h]
    cases hrel : (releaseAll t c.buffers).2 with
    | none =>
      cases t.stopStream <;> simp [hrel]
    | some e => simp [hrel]
  · intro k e hk hok hfail
    have hrel := releaseAll_fail t c.buffers k e hk hok hfail
    constructor
    · simp [StopStreaming, h, hrel]
    · rw [hrel]
  · intro hok
    have hrel := releaseAll_ok t c.buffers hok
    constructor
    · rw [hrel]
    · simp only [StopStreaming, h]
      cases t.stopStream <;> simp [hrel]

/-- C2 witness: the amended statement applies to the concrete streaming
two-buffer camera on the all-successful transport; the state after the call
is the same camera with the flag cleared. -/
theorem stopStreaming_spec_witness :
    (StopStreaming tOk streamingCam).1 = { streamingCam with streaming := false } ∧
    (releaseAll tOk streamingCam.buffers).1 = streamingCam.buffers :=
  ⟨(stopStreaming_spec tOk streamingCam rfl).1,
   ((stopStreaming_spec tOk streamingCam rfl).2.2 (fun _ _ => rfl)).1⟩

/-- C7. The streaming flag gates the operations: starting when already
streaming fails with the already-streaming error and leaves the whole camera
(pool buffers and buffer count included) unchanged; setting the buffer count
while streaming fails and leaves the stored count unchanged; stopping when
not streaming fails with the not-streaming error and changes nothing. -/
theorem streaming_flag_gates (t : Transport) (c : Camera) (count : Nat) :
    (c.streaming = true →
      StartStreaming t c = (c, some .alreadyStreaming) ∧
      SetBufferCount c count = (c, some .setBufferWhileStreaming)) ∧
    (c.streaming = false → StopStreaming t c = (c, some .notStreaming)) := by
  refine ⟨fun h => ⟨?_, ?_⟩, fun h => ?_⟩
  · simp [StartStreaming, h]
  · simp [SetBufferCount, h]
  · simp [StopStreaming, h]

/-- C7 witness: on the concrete streaming camera the second start and the
buffer-count change fail without altering the camera, and on the concrete
idle camera stopping fails. -/
theorem streaming_flag_gates_witness :
    StartStreaming tOk streamingCam = (streamingCam, some .alreadyStreaming) ∧
    SetBufferCount streamingCam 4 = (streamingCam, some .setBufferWhileStreaming) ∧
    StopStreaming tOk idleCam = (idleCam, some .notStreaming) :=
  ⟨((streaming_flag_gates tOk streamingCam 4).1 rfl).1,
   ((streaming_flag_gates tOk streamingCam 4).1 rfl).2,
   (streaming_flag_gates tOk idleCam 4).2 rfl⟩

end Webcam
